import Mathlib

/-!
Verification of `src/multicore.rs` (bellman's multicore abstraction).

The file shallowly embeds the two build-time strategies of the `Worker`
abstraction:

* the pooled strategy (`multicore` feature on): `NUM_CPUS` resolution from the
  `BELLMAN_NUM_CPUS` environment override, `log2_floor`, `Worker::log_num_cpus`,
  `Worker::compute` (spawning on the CPU pool) and `Worker::scope` (chunk
  sizing plus the rayon fork-join region);
* the inline strategy (`multicore` feature off): synchronous `compute`,
  `scope` with a `DummyScope`, and `log_num_cpus = 0`.

Machine integers: `usize` is modelled as `Nat` with the 64-bit word width made
explicit exactly where overflow matters.  In `log2_floor` the Rust expression
`1 << (pow + 1)` is a `usize` shift whose amount must stay below 64: a shift
amount of 64 or more is an arithmetic overflow (a panic in checked builds; with
masked shifts the loop never terminates), so the embedding returns an explicit
panic value there.  Closures with side effects are embedded as explicit state
passing; fallible closures return `Except`.
-/

/-- Outcomes of a Rust panic inside the embedded code: the `assert!(num > 0)`
at the top of `log2_floor`, or the left-shift whose amount reached the 64-bit
word width. -/
inductive PanicKind where
  | assertFailed
  | shiftOverflow
deriving DecidableEq

/-- Loop of `log2_floor` in `src/multicore.rs`:

    let mut pow = 0;
    while (1 << (pow + 1)) <= num { pow += 1; }

`left` counts how many shift amounts below the 64-bit word width remain, i.e.
the invariant at every call is `left = 63 - pow` (entry: `pow = 0`,
`left = 63`).  When `left = 0` the next shift amount `pow + 1` equals 64, so
evaluating `1 << (pow + 1)` overflows the word width and the iteration panics
before the comparison happens.  While `pow + 1 ≤ 63` the shift cannot wrap,
so `1 <<< (pow + 1)` is the exact machine value. -/
def log2_floorGo (num : Nat) : Nat → Nat → Except PanicKind Nat
  | _, 0 => Except.error PanicKind.shiftOverflow
  | pow, left + 1 =>
    if 1 <<< (pow + 1) ≤ num then log2_floorGo num (pow + 1) left
    else Except.ok pow

/-- `log2_floor` from `src/multicore.rs`: asserts `num > 0`, then runs the
shift loop starting at `pow = 0` (so 63 in-word shift amounts remain). -/
def log2_floor (num : Nat) : Except PanicKind Nat :=
  if num > 0 then log2_floorGo num 0 63
  else Except.error PanicKind.assertFailed

/-- Rust `str::parse::<usize>()` as used on the `BELLMAN_NUM_CPUS` value: an
optional leading `+`, then at least one ASCII digit, and the value must fit in
64 bits; anything else is a parse error.  The string is handled through its
character list. -/
def parseUsize (s : String) : Option Nat :=
  let digits :=
    match s.data with
    | '+' :: rest => rest
    | cs => cs
  if digits ≠ [] ∧ digits.all Char.isDigit then
    let v := digits.foldl (fun acc c => acc * 10 + (c.toNat - 48)) 0
    if v < 2 ^ 64 then some v else none
  else none

/-- The `NUM_CPUS` lazy static of `src/multicore.rs`:

    if let Ok(num) = env::var("BELLMAN_NUM_CPUS") {
        if let Ok(num) = num.parse() { num } else { num_cpus::get() }
    } else { num_cpus::get() }

`envOverride` is the value of `BELLMAN_NUM_CPUS` (`none` when unset), and
`hwCpus` stands for `num_cpus::get()`, the hardware-reported logical core
count. -/
def resolveNumCpus (envOverride : Option String) (hwCpus : Nat) : Nat :=
  match envOverride with
  | some s =>
    match parseUsize s with
    | some n => n
    | none => hwCpus
  | none => hwCpus

/-- Chunk sizing in the pooled `Worker::scope`:

    let chunk_size = if elements < *NUM_CPUS { 1 } else { elements / *NUM_CPUS };
-/
def scope_chunk_size (elements numCpus : Nat) : Nat :=
  if elements < numCpus then 1 else elements / numCpus

/-- Pooled `Worker::log_num_cpus`: `log2_floor(*NUM_CPUS)`, as a function of
the resolved CPU count. -/
def logNumCpus_pooled (numCpus : Nat) : Except PanicKind Nat :=
  log2_floor numCpus

/-- Inline `Worker::log_num_cpus`: returns `0` unconditionally. -/
def logNumCpus_inline : Nat :=
  0

/-- Result of one `Future::poll` call in the futures-0.1 style used by the
code: either not ready yet, or ready with the closure's `Result` (`Ok v`
becomes `Async::Ready(v)`, an error `e` surfaces as `Err(e)`); a terminal
outcome is `ready r` with `r : Except ε α`. -/
inductive PollOutcome (α ε : Type) where
  | pending
  | ready (r : Except ε α)

/-- Modelled from the spec: the async-executor capability behind
`CPU_POOL.spawn_fn` (and the already-resolved future behind the inline
`f().into_future()`) is "a given capability providing task spawning and
one-shot completion values" — a pending computation whose value or error
becomes observable after a finite, scheduler-chosen number of polls and,
once resolved, stays resolved.  `delay` is the number of polls that still
return pending; `result` the one-shot completion value. -/
structure WorkerFuture (α ε : Type) where
  delay : Nat
  result : Except ε α

/-- `WorkerFuture::poll` (both strategies delegate to the inner future's
`poll`): while the computation is pending the poll reports `pending` and the
remaining delay shrinks; once the delay is exhausted every poll reports the
same terminal outcome and leaves the handle unchanged. -/
def WorkerFuture.poll {α ε : Type} (fut : WorkerFuture α ε) :
    PollOutcome α ε × WorkerFuture α ε :=
  if fut.delay = 0 then (PollOutcome.ready fut.result, fut)
  else (PollOutcome.pending, ⟨fut.delay - 1, fut.result⟩)

/-- Outcome of the `(n+1)`-th poll of a handle (polling a handle `n` times
and looking at the last outcome). -/
def WorkerFuture.pollN {α ε : Type} : Nat → WorkerFuture α ε → PollOutcome α ε
  | 0, fut => (fut.poll).1
  | n + 1, fut => WorkerFuture.pollN n (fut.poll).2

/-- Pooled `Worker::compute`: `CPU_POOL.spawn_fn(f)` wrapped in a
`WorkerFuture`.  The closure's result is the handle's one-shot completion
value; `sched` is the scheduler-chosen number of polls before it resolves
(any finite value is possible, hence it is universally quantified in the
theorems). -/
def Worker.compute_pooled {α ε : Type} (f : Unit → Except ε α) (sched : Nat) :
    WorkerFuture α ε :=
  ⟨sched, f ()⟩

/-- Inline `Worker::compute`: `f().into_future()` — `f` runs immediately on
the calling thread and the returned future is already resolved (zero delay). -/
def Worker.compute_inline {α ε : Type} (f : Unit → Except ε α) :
    WorkerFuture α ε :=
  ⟨0, f ()⟩

/-- The inline strategy's `DummyScope` unit struct. -/
structure DummyScope where

/-- `DummyScope::spawn`: `f(self);` — the spawned closure runs to completion,
inline, before `spawn` returns.  The closure's side effects are embedded as an
explicit state transformer. -/
def DummyScope.spawn {σ : Type} (s : DummyScope) (g : DummyScope → σ → σ)
    (st : σ) : σ :=
  g s st

/-- Inline `Worker::scope`: `f(&DummyScope, elements)` — one direct call with
`chunk_size = elements`; the caller-visible state is threaded explicitly and
the second component is `f`'s return value. -/
def Worker.scope_inline {σ ρ : Type} (elements : Nat)
    (f : DummyScope → Nat → σ → σ × ρ) (st : σ) : σ × ρ :=
  f DummyScope.mk elements st

/-- Modelled from the spec: `rayon::Scope`, the fork-join region handle of the
external pool capability; its spawn semantics belong to the underlying
thread-pool capability, which is out of scope here. -/
structure RayonScope where

/-- Pooled `Worker::scope`: computes `chunk_size` and runs
`THREAD_POOL.scope(|scope| f(scope, chunk_size))`.  Modelled from the spec:
the fork-join region invokes the closure synchronously, blocks until every
spawned sub-task has joined, and returns the closure's result — so with the
sub-tasks' effects threaded through the explicit state, the call reduces to
applying `f` to the scope handle, the chunk size and the state. -/
def Worker.scope_pooled {σ ρ : Type} (numCpus elements : Nat)
    (f : RayonScope → Nat → σ → σ × ρ) (st : σ) : σ × ρ :=
  f RayonScope.mk (scope_chunk_size elements numCpus) st

/-- While the loop can still shift in-word (`pow + left = 63`) and the input
sits strictly below `2 ^ 63`, the loop returns the exponent `p` of the
greatest power of two not exceeding `num`. -/
theorem log2_floorGo_ok (num : Nat) :
    ∀ left pow, pow + left = 63 → 2 ^ pow ≤ num → num < 2 ^ 63 →
      ∃ p, log2_floorGo num pow left = Except.ok p ∧
        2 ^ p ≤ num ∧ num < 2 ^ (p + 1) := by
  intro left
  induction left with
  | zero =>
    intro pow hsum hle hlt
    have hpow : pow = 63 := by omega
    subst hpow
    omega
  | succ left ih =>
    intro pow hsum hle hlt
    by_cases hc : 1 <<< (pow + 1) ≤ num
    · have hc' : 2 ^ (pow + 1) ≤ num := by
        simpa [Nat.shiftLeft_eq] using hc
      simpa only [log2_floorGo, if_pos hc] using ih (pow + 1) (by omega) hc' hlt
    · have hc' : ¬ 2 ^ (pow + 1) ≤ num := by
        simpa [Nat.shiftLeft_eq] using hc
      refine ⟨pow, ?_, hle, by omega⟩
      simp only [log2_floorGo, if_neg hc]

/-- Once the input reaches `2 ^ 63`, every in-word comparison succeeds, so the
loop walks `pow` all the way up and the shift amount hits the word width. -/
theorem log2_floorGo_overflow (num : Nat) :
    ∀ left pow, pow + left = 63 → 2 ^ 63 ≤ num →
      log2_floorGo num pow left = Except.error PanicKind.shiftOverflow := by
  intro left
  induction left with
  | zero => intro pow _ _; rfl
  | succ left ih =>
    intro pow hsum hge
    have hc : 1 <<< (pow + 1) ≤ num := by
      have h1 : 2 ^ (pow + 1) ≤ 2 ^ 63 :=
        Nat.pow_le_pow_right (by norm_num) (by omega)
      simpa [Nat.shiftLeft_eq] using le_trans h1 hge
    simp only [log2_floorGo, if_pos hc]
    exact ih (pow + 1) (by omega) hge

/-- For `1 ≤ n < 2 ^ 63`, `log2_floor` returns `Nat.log2 n`, the floor of the
base-2 logarithm. -/
theorem log2_floor_eq_log2 (n : Nat) (h1 : 1 ≤ n) (h2 : n < 2 ^ 63) :
    log2_floor n = Except.ok (Nat.log2 n) := by
  obtain ⟨p, hp, hple, hplt⟩ :=
    log2_floorGo_ok n 63 0 (by omega) (by simpa using h1) h2
  have hmain : log2_floor n = log2_floorGo n 0 63 := by
    simp [log2_floor, show n > 0 by omega]
  have hlog_le : 2 ^ Nat.log2 n ≤ n := Nat.log2_self_le (by omega)
  have hlog_lt : n < 2 ^ (Nat.log2 n + 1) := Nat.lt_log2_self
  have h3 : p ≤ Nat.log2 n := by
    by_contra hcon
    push_neg at hcon
    have : 2 ^ (Nat.log2 n + 1) ≤ 2 ^ p :=
      Nat.pow_le_pow_right (by norm_num) (by omega)
    omega
  have h4 : Nat.log2 n ≤ p := by
    by_contra hcon
    push_neg at hcon
    have : 2 ^ (p + 1) ≤ 2 ^ Nat.log2 n :=
      Nat.pow_le_pow_right (by norm_num) (by omega)
    omega
  rw [hmain, hp, le_antisymm h3 h4]

/-- A handle whose remaining delay is at most `n` reports its terminal outcome
at the `(n+1)`-th poll. -/
theorem WorkerFuture.pollN_ready {α ε : Type} :
    ∀ (n : Nat) (fut : WorkerFuture α ε), fut.delay ≤ n →
      WorkerFuture.pollN n fut = PollOutcome.ready fut.result := by
  intro n
  induction n with
  | zero =>
    intro fut h
    have h0 : fut.delay = 0 := by omega
    simp [WorkerFuture.pollN, WorkerFuture.poll, h0]
  | succ n ih =>
    intro fut h
    by_cases h0 : fut.delay = 0
    · simp [WorkerFuture.pollN, WorkerFuture.poll, h0, ih fut (by omega)]
    · simp only [WorkerFuture.pollN, WorkerFuture.poll, if_neg h0]
      exact ih ⟨fut.delay - 1, fut.result⟩ (by simp; omega)

/-- Claim C1 (amended): for every element count `E` and resolved CPU count
`P ≥ 1`, the pooled `Worker::scope` computes `chunk_size = 1` if `E < P` and
`chunk_size = E / P` (integer floor division) otherwise, and passes that chunk
size to the closure; the bound `chunk_size * P ≤ E` holds whenever `P ≤ E`
(for `E < P` the chunk size is `1` and `1 * P` exceeds `E`). -/
theorem scope_chunk_size_spec (E P : Nat) (_hP : 1 ≤ P) :
    scope_chunk_size E P = (if E < P then 1 else E / P) ∧
    (∀ (σ ρ : Type) (f : RayonScope → Nat → σ → σ × ρ) (st : σ),
      Worker.scope_pooled P E f st = f RayonScope.mk (scope_chunk_size E P) st) ∧
    (P ≤ E → scope_chunk_size E P * P ≤ E) := by
  refine ⟨rfl, fun σ ρ f st => rfl, fun hPE => ?_⟩
  have hnot : ¬ E < P := by omega
  simp only [scope_chunk_size, if_neg hnot]
  exact Nat.div_mul_le_self E P

/-- Claim C1, counterexample to the unamended claim: with `E = 1` element and
`P = 2` CPUs the chunk size is `1`, and `1 * 2 ≤ 1` is false, so
`chunk_size * P ≤ E` does not hold for `E < P`. -/
theorem scope_chunk_size_small_elements_cex :
    scope_chunk_size 1 2 = 1 ∧ ¬ scope_chunk_size 1 2 * 2 ≤ 1 := by
  decide

/-- Claim C1, witness: `E = 10`, `P = 3` gives chunk size `10 / 3 = 3` and
`3 * 3 ≤ 10`. -/
theorem scope_chunk_size_spec_witness :
    1 ≤ 3 ∧ scope_chunk_size 10 3 = (if 10 < 3 then 1 else 10 / 3) ∧
      (3 ≤ 10 → scope_chunk_size 10 3 * 3 ≤ 10) :=
  ⟨by decide, (scope_chunk_size_spec 10 3 (by decide)).1,
    (scope_chunk_size_spec 10 3 (by decide)).2.2⟩

/-- Claim C2 (amended): for `1 ≤ n < 2 ^ 63` — rather than every `n ≥ 1`,
because from `n = 2 ^ 63` the loop's shift amount reaches the 64-bit word
width — `log2_floor n` returns `Nat.log2 n = floor(log2 n)`, the largest `p`
with `2 ^ p ≤ n`. -/
theorem log2_floor_correct (n : Nat) (h1 : 1 ≤ n) (h2 : n < 2 ^ 63) :
    log2_floor n = Except.ok (Nat.log2 n) ∧
    2 ^ Nat.log2 n ≤ n ∧
    (∀ q, 2 ^ q ≤ n → q ≤ Nat.log2 n) := by
  refine ⟨log2_floor_eq_log2 n h1 h2, Nat.log2_self_le (by omega), fun q hq => ?_⟩
  by_contra hcon
  push_neg at hcon
  have h3 : n < 2 ^ (Nat.log2 n + 1) := Nat.lt_log2_self
  have h4 : 2 ^ (Nat.log2 n + 1) ≤ 2 ^ q :=
    Nat.pow_le_pow_right (by norm_num) (by omega)
  omega

/-- Claim C2, counterexample to the unamended claim: at `n = 2 ^ 63` the
function does not return any value — the loop reaches shift amount 64, an
overflow panic — so it does not return the largest `p` with `2 ^ p ≤ n`. -/
theorem log2_floor_overflow_cex :
    log2_floor (2 ^ 63) = Except.error PanicKind.shiftOverflow := by
  rfl

/-- Claim C2, witness: `log2_floor 7 = 2`, matching the spec's example. -/
theorem log2_floor_correct_witness :
    (1 ≤ 7 ∧ 7 < 2 ^ 63 ∧ log2_floor 7 = Except.ok 2) ∧
      log2_floor 7 = Except.ok (Nat.log2 7) :=
  ⟨⟨by decide, by decide, by rfl⟩, (log2_floor_correct 7 (by decide) (by decide)).1⟩

/-- Claim C3 (amended): the resolver uses the override whenever it is present
and parses as a `usize` — any nonnegative integer, including `0`, which is
used as-is rather than rejected — and otherwise falls back to the hardware
count; provided the hardware count is at least 1, the resolved count is at
least 1 for every override except one parsing to `0`. -/
theorem resolveNumCpus_spec (ov : Option String) (hw : Nat) (hhw : 1 ≤ hw) :
    (ov = none → resolveNumCpus ov hw = hw) ∧
    (∀ s, ov = some s → parseUsize s = none → resolveNumCpus ov hw = hw) ∧
    (∀ s n, ov = some s → parseUsize s = some n → resolveNumCpus ov hw = n) ∧
    ((∀ s, ov = some s → parseUsize s ≠ some 0) → 1 ≤ resolveNumCpus ov hw) := by
  refine ⟨?_, ?_, ?_, ?_⟩
  · intro h; subst h; rfl
  · intro s h hp; subst h; simp [resolveNumCpus, hp]
  · intro s n h hp; subst h; simp [resolveNumCpus, hp]
  · intro hnz
    rcases ov with _ | s
    · simpa [resolveNumCpus] using hhw
    · rcases hp : parseUsize s with _ | n
      · simpa [resolveNumCpus, hp] using hhw
      · have hne : parseUsize s ≠ some 0 := hnz s rfl
        have hn : n ≠ 0 := fun h0 => hne (h0 ▸ hp)
        simp [resolveNumCpus, hp]
        omega

/-- Claim C3, counterexample to the unamended claim: the override string `"0"`
parses successfully as a `usize`, is not rejected for failing to be positive,
and makes the resolver return `0`. -/
theorem resolveNumCpus_zero_cex :
    resolveNumCpus (some "0") 8 = 0 ∧ ¬ 1 ≤ resolveNumCpus (some "0") 8 :=
  ⟨rfl, by decide⟩

/-- Claim C3, witness: override `"4"` with 8 hardware cores resolves to 4. -/
theorem resolveNumCpus_spec_witness :
    1 ≤ 8 ∧ resolveNumCpus (some "4") 8 = 4 :=
  ⟨by decide, (resolveNumCpus_spec (some "4") 8 (by decide)).2.2.1 "4" 4 rfl (by rfl)⟩

/-- Claim C4: if the closure returns `Ok v`, polling the handle from
`Worker::compute` to completion yields `Ready(Ok v)`, and if it returns
`Err e` it yields `Ready(Err e)`, identically in the pooled strategy (for
every scheduler delay) and in the inline strategy; the inline handle is
already resolved when `compute` returns (its very first poll is `ready`). -/
theorem compute_poll_spec (α ε : Type) (f : Unit → Except ε α) (v : α) (e : ε)
    (k n : Nat) (hkn : k ≤ n) :
    (f () = Except.ok v →
      WorkerFuture.pollN n (Worker.compute_pooled f k) =
        PollOutcome.ready (Except.ok v) ∧
      WorkerFuture.pollN n (Worker.compute_inline f) =
        PollOutcome.ready (Except.ok v)) ∧
    (f () = Except.error e →
      WorkerFuture.pollN n (Worker.compute_pooled f k) =
        PollOutcome.ready (Except.error e) ∧
      WorkerFuture.pollN n (Worker.compute_inline f) =
        PollOutcome.ready (Except.error e)) ∧
    (Worker.compute_inline f).poll =
      (PollOutcome.ready (f ()), Worker.compute_inline f) := by
  have hpooled : WorkerFuture.pollN n (Worker.compute_pooled f k) =
      PollOutcome.ready (f ()) :=
    WorkerFuture.pollN_ready n _ (by simpa [Worker.compute_pooled] using hkn)
  have hinline : WorkerFuture.pollN n (Worker.compute_inline f) =
      PollOutcome.ready (f ()) :=
    WorkerFuture.pollN_ready n _ (by simp [Worker.compute_inline])
  refine ⟨fun hok => ?_, fun herr => ?_, rfl⟩
  · rw [hok] at hpooled hinline; exact ⟨hpooled, hinline⟩
  · rw [herr] at hpooled hinline; exact ⟨hpooled, hinline⟩

/-- Claim C4, witness: a closure returning `Ok 5`, scheduled with one poll of
delay in the pooled strategy, polled three times, yields `Ready(Ok 5)` in both
strategies. -/
theorem compute_poll_spec_witness :
    1 ≤ 2 ∧
    WorkerFuture.pollN 2
        (Worker.compute_pooled (fun _ => (Except.ok 5 : Except Nat Nat)) 1) =
      PollOutcome.ready (Except.ok 5) ∧
    WorkerFuture.pollN 2
        (Worker.compute_inline (fun _ => (Except.ok 5 : Except Nat Nat))) =
      PollOutcome.ready (Except.ok 5) :=
  ⟨by decide,
    ((compute_poll_spec Nat Nat (fun _ => Except.ok 5) 5 0 1 2 (by decide)).1 rfl).1,
    ((compute_poll_spec Nat Nat (fun _ => Except.ok 5) 5 0 1 2 (by decide)).1 rfl).2⟩

/-- Claim C5: in the inline strategy `Worker::scope`/`DummyScope::spawn` are
fully synchronous: `scope E f` is exactly one call `f(&DummyScope, E)` — the
chunk size is `E` and the returned value is `f`'s — `spawn g` applies `g`'s
entire effect to the state before returning, and instrumenting the closure
with a call counter started at `0` leaves the counter at `1` ( `f` is invoked
exactly once, with `E` as its chunk-size argument). -/
theorem scope_inline_spec (σ ρ : Type) (E : Nat)
    (f : DummyScope → Nat → σ → σ × ρ) (st : σ)
    (g : DummyScope → σ → σ) (body : Nat → ρ) :
    Worker.scope_inline E f st = f DummyScope.mk E st ∧
    DummyScope.spawn DummyScope.mk g st = g DummyScope.mk st ∧
    Worker.scope_inline E (fun _ n (c : Nat) => (c + 1, body n)) 0 = (1, body E) :=
  ⟨rfl, rfl, rfl⟩

/-- Claim C6 (amended): the pooled `Worker::log_num_cpus` returns
`floor(log2 N)` for every resolved CPU count `N` with `1 ≤ N < 2 ^ 63` (not
for every `N ≥ 1`: from `N = 2 ^ 63` — reachable through the override — the
inner `log2_floor` loop overflows its shift), and the inline strategy returns
`0` unconditionally. -/
theorem logNumCpus_spec :
    (∀ N, 1 ≤ N → N < 2 ^ 63 →
      logNumCpus_pooled N = Except.ok (Nat.log2 N)) ∧
    logNumCpus_inline = 0 :=
  ⟨fun N h1 h2 => log2_floor_eq_log2 N h1 h2, rfl⟩

/-- Claim C6, counterexample to the unamended claim: for the resolved count
`N = 2 ^ 63` (which satisfies `N ≥ 1`) the pooled `log_num_cpus` does not
return `floor(log2 N) = 63`; its shift overflows instead. -/
theorem logNumCpus_pooled_overflow_cex :
    logNumCpus_pooled (2 ^ 63) = Except.error PanicKind.shiftOverflow := by
  rfl

/-- Claim C6, witness: with 4 resolved CPUs the pooled strategy reports depth
`log2 4 = 2` and the inline strategy reports `0`. -/
theorem logNumCpus_spec_witness :
    (1 ≤ 4 ∧ 4 < 2 ^ 63 ∧ logNumCpus_pooled 4 = Except.ok 2) ∧
      logNumCpus_pooled 4 = Except.ok (Nat.log2 4) ∧ logNumCpus_inline = 0 :=
  ⟨⟨by decide, by decide, by rfl⟩,
    logNumCpus_spec.1 4 (by decide) (by decide), logNumCpus_spec.2⟩

/-- Claim C7: a handle whose poll has reported a terminal outcome keeps
reporting that same outcome: the poll that returned `ready r` left the handle
unchanged, and every later poll — in either strategy, since handles of both
are values of the same model — again returns `ready r`. -/
theorem poll_after_ready_idempotent (α ε : Type) (fut : WorkerFuture α ε)
    (r : Except ε α) (hr : (fut.poll).1 = PollOutcome.ready r) :
    fut.poll = (PollOutcome.ready r, fut) ∧
    ∀ n, WorkerFuture.pollN n fut = PollOutcome.ready r := by
  have h0 : fut.delay = 0 := by
    by_contra hne
    simp [WorkerFuture.poll, hne] at hr
  have hres : r = fut.result := by
    simp [WorkerFuture.poll, h0] at hr
    exact hr.symm
  subst hres
  exact ⟨by simp [WorkerFuture.poll, h0],
    fun n => WorkerFuture.pollN_ready n fut (by omega)⟩

/-- Claim C7, witness: a resolved handle carrying `Ok 3` returns
`ready (Ok 3)` on its first poll, is left unchanged by it, and still returns
`ready (Ok 3)` on the sixth poll. -/
theorem poll_after_ready_idempotent_witness :
    (⟨0, Except.ok 3⟩ : WorkerFuture Nat Nat).poll =
      (PollOutcome.ready (Except.ok 3), ⟨0, Except.ok 3⟩) ∧
    WorkerFuture.pollN 5 (⟨0, Except.ok 3⟩ : WorkerFuture Nat Nat) =
      PollOutcome.ready (Except.ok 3) :=
  ⟨(poll_after_ready_idempotent Nat Nat ⟨0, Except.ok 3⟩ (Except.ok 3) rfl).1,
    (poll_after_ready_idempotent Nat Nat ⟨0, Except.ok 3⟩ (Except.ok 3) rfl).2 5⟩

/-- Claim C8: calling `log2_floor` with `num = 0` fails the `assert!(num > 0)`
contract check — a panic, not a returned value. -/
theorem log2_floor_zero_asserts :
    log2_floor 0 = Except.error PanicKind.assertFailed := by
  rfl

/-- Claim C9 (amended): the two strategies expose the same operations and
`compute` is observably equivalent between them — polling either handle long
enough yields the same terminal outcome — and `scope` in both strategies makes
exactly one call to the closure and returns its value, so closures that ignore
the chunk size and scope handle behave identically; but `log_num_cpus` and the
chunk size passed by `scope` differ between the strategies (see the
counterexample), so full observable equivalence fails. -/
theorem strategies_equiv_spec (α ε σ ρ : Type) (f : Unit → Except ε α)
    (k n : Nat) (hkn : k ≤ n) (N E : Nat)
    (g : RayonScope → Nat → σ → σ × ρ) (g' : DummyScope → Nat → σ → σ × ρ)
    (r : σ → σ × ρ) (st : σ) :
    WorkerFuture.pollN n (Worker.compute_pooled f k) =
      WorkerFuture.pollN n (Worker.compute_inline f) ∧
    Worker.scope_pooled N E g st = g RayonScope.mk (scope_chunk_size E N) st ∧
    Worker.scope_inline E g' st = g' DummyScope.mk E st ∧
    Worker.scope_pooled N E (fun _ _ => r) st =
      Worker.scope_inline E (fun _ _ => r) st := by
  refine ⟨?_, rfl, rfl, rfl⟩
  rw [WorkerFuture.pollN_ready n _ (by simpa [Worker.compute_pooled] using hkn),
    WorkerFuture.pollN_ready n _ (by simp [Worker.compute_inline])]
  rfl

/-- Claim C9, counterexample to the unamended claim: with 2 resolved CPUs,
`log_num_cpus` is `1` pooled but `0` inline, and over 8 elements the closure
`fun _ c st => (st, c)` observes chunk size `4` pooled but `8` inline — the
strategies are not functionally equivalent on the same inputs. -/
theorem strategies_observably_differ_cex :
    logNumCpus_pooled 2 = Except.ok 1 ∧ logNumCpus_inline = 0 ∧
    Worker.scope_pooled 2 8 (fun _ c (st : Nat) => (st, c)) 0 = (0, 4) ∧
    Worker.scope_inline 8 (fun _ c (st : Nat) => (st, c)) 0 = (0, 8) :=
  ⟨rfl, rfl, rfl, rfl⟩

/-- Claim C9, witness: a pooled handle with one pending poll and the inline
handle for the same `Ok 7` closure agree at the third poll. -/
theorem strategies_equiv_spec_witness :
    1 ≤ 2 ∧
    WorkerFuture.pollN 2
        (Worker.compute_pooled (fun _ => (Except.ok 7 : Except Nat Nat)) 1) =
      WorkerFuture.pollN 2
        (Worker.compute_inline (fun _ => (Except.ok 7 : Except Nat Nat))) :=
  ⟨by decide,
    (strategies_equiv_spec Nat Nat Nat Nat (fun _ => Except.ok 7) 1 2 (by decide)
      2 8 (fun _ _ st => (st, 0)) (fun _ _ st => (st, 0)) (fun st => (st, 0)) 0).1⟩

/-- Claim C10 (amended): for `1 ≤ n < 2 ^ 63` every shift amount the loop
evaluates is at most `log2_floor n + 1 < 64`, within the 64-bit word, and the
loop terminates with a value; but for `2 ^ 63 ≤ n ≤ usize::MAX` — inputs near
the maximum `usize` value, which the unamended claim includes — the loop
drives the shift amount to the word width 64, an overflow (a panic under
checked arithmetic; with masked shifts the loop condition never becomes
false). -/
theorem log2_floor_shift_bound_spec (n : Nat) (h1 : 1 ≤ n) (h64 : n < 2 ^ 64) :
    (n < 2 ^ 63 → ∃ p, log2_floor n = Except.ok p ∧ p + 1 < 64) ∧
    (2 ^ 63 ≤ n → log2_floor n = Except.error PanicKind.shiftOverflow) := by
  constructor
  · intro h63
    refine ⟨Nat.log2 n, log2_floor_eq_log2 n h1 h63, ?_⟩
    have hself : 2 ^ Nat.log2 n ≤ n := Nat.log2_self_le (by omega)
    by_contra hcon
    push_neg at hcon
    have : 2 ^ 63 ≤ 2 ^ Nat.log2 n :=
      Nat.pow_le_pow_right (by norm_num) (by omega)
    omega
  · intro h63
    have hmain : log2_floor n = log2_floorGo n 0 63 := by
      simp [log2_floor, show n > 0 by omega]
    rw [hmain]
    exact log2_floorGo_overflow n 63 0 (by omega) h63

/-- Claim C10, counterexample to the unamended claim: at the maximum `usize`
value `2 ^ 64 - 1` the shift amount reaches the word width — the shift does
overflow and the loop does not terminate with a value. -/
theorem log2_floor_usize_max_overflow_cex :
    log2_floor (2 ^ 64 - 1) = Except.error PanicKind.shiftOverflow := by
  rfl

/-- Claim C10, witness: at `n = 5` the loop stops at `p = 2` and its largest
shift amount `3` is below the word width. -/
theorem log2_floor_shift_bound_spec_witness :
    (1 ≤ 5 ∧ 5 < 2 ^ 64 ∧ 5 < 2 ^ 63) ∧
      ∃ p, log2_floor 5 = Except.ok p ∧ p + 1 < 64 :=
  ⟨⟨by decide, by decide, by decide⟩,
    (log2_floor_shift_bound_spec 5 (by decide) (by decide)).1 (by decide)⟩

